import Mathlib

unseal Rat.add Rat.mul Rat.sub Rat.inv Rat.ofScientific

/-!
Verification of the AgriCalc-Scan client logic: the expression
sanitizer/evaluator (`src/services/math-service.ts` and the inline
`simpleEvaluate` of `src/app/page.tsx`), the equation assembly policy and
flow (`src/ai/flows/solve-equations.ts`), the geometric crop transform
(`src/lib/cropImage.ts`, `src/lib/image-utils.ts`), and the crop-region
corner state of `src/app/page.tsx`.

Modelling conventions.  JavaScript numbers are modelled exactly: a value is
either a finite rational or one of the IEEE-754 specials Infinity,
-Infinity, NaN.  Double-precision rounding, overflow of huge literals and
the sign of zero are abstracted away (finite arithmetic is exact rational
arithmetic); this only affects the numeric value of finite results and the
sign of infinite quotients, never the finite/Infinity/NaN classification
the specification speaks about.  The evaluated grammar is the one the
specification fixes for the evaluator: decimal literals (including the
sloppy-mode legacy octal forms), the four binary operators, unary signs and
parentheses; JavaScript constructs reachable only through other token
sequences (the exponentiation token, comment sequences, regular-expression
literals, statement splitting by automatic semicolon insertion after the
first token) are outside the modelled grammar and are mapped to a syntax
error.  A thrown exception is an explicit outcome (`Option.none` /
`CropOutcome.thrown`), never an implicit one.
-/

namespace AgriCalc

/-- A JavaScript number: a finite (exact rational) value or one of the
IEEE-754 specials. -/
inductive JsNum where
  | finite (q : ℚ)
  | posInf
  | negInf
  | nan
deriving DecidableEq, Repr

/-- A JavaScript value produced by running `new Function('return ' + s)()`
over the restricted character set: a number, or `undefined` (bare
`return`). -/
inductive JsValue where
  | num (n : JsNum)
  | undef
deriving DecidableEq, Repr

/-- `isFinite` of JavaScript: true exactly on finite numbers. -/
def jsIsFinite : JsNum → Bool
  | .finite _ => true
  | _ => false

/-- `isNaN` of JavaScript restricted to numbers. -/
def jsIsNaN : JsNum → Bool
  | .nan => true
  | _ => false

/-- Unary minus (negative zero is identified with zero). -/
def jsNeg : JsNum → JsNum
  | .finite q => .finite (-q)
  | .posInf => .negInf
  | .negInf => .posInf
  | .nan => .nan

/-- IEEE-754 addition on the exact-rational model. -/
def jsAdd : JsNum → JsNum → JsNum
  | .nan, _ => .nan
  | _, .nan => .nan
  | .posInf, .negInf => .nan
  | .negInf, .posInf => .nan
  | .posInf, _ => .posInf
  | _, .posInf => .posInf
  | .negInf, _ => .negInf
  | _, .negInf => .negInf
  | .finite a, .finite b => .finite (a + b)

/-- IEEE-754 subtraction: `a - b = a + (-b)`. -/
def jsSub (a b : JsNum) : JsNum := jsAdd a (jsNeg b)

/-- IEEE-754 multiplication on the exact-rational model. -/
def jsMul : JsNum → JsNum → JsNum
  | .nan, _ => .nan
  | _, .nan => .nan
  | .finite a, .finite b => .finite (a * b)
  | .posInf, .posInf => .posInf
  | .posInf, .negInf => .negInf
  | .negInf, .posInf => .negInf
  | .negInf, .negInf => .posInf
  | .posInf, .finite b => if b = 0 then .nan else if 0 < b then .posInf else .negInf
  | .finite a, .posInf => if a = 0 then .nan else if 0 < a then .posInf else .negInf
  | .negInf, .finite b => if b = 0 then .nan else if 0 < b then .negInf else .posInf
  | .finite a, .negInf => if a = 0 then .nan else if 0 < a then .negInf else .posInf

/-- IEEE-754 division on the exact-rational model; division of a nonzero
finite number by zero yields a signed infinity, `0/0` yields NaN. -/
def jsDiv : JsNum → JsNum → JsNum
  | .nan, _ => .nan
  | _, .nan => .nan
  | .posInf, .posInf => .nan
  | .posInf, .negInf => .nan
  | .negInf, .posInf => .nan
  | .negInf, .negInf => .nan
  | .posInf, .finite b => if 0 ≤ b then .posInf else .negInf
  | .negInf, .finite b => if 0 ≤ b then .negInf else .posInf
  | .finite _, .posInf => .finite 0
  | .finite _, .negInf => .finite 0
  | .finite a, .finite b =>
    if b = 0 then (if a = 0 then .nan else if 0 < a then .posInf else .negInf)
    else .finite (a / b)

/-- The JavaScript white-space set (`WhiteSpace` plus `LineTerminator`),
which is exactly the set matched by `\s` in the sanitizing regular
expressions. -/
def isJsWs (c : Char) : Bool :=
  c = '\t' || c = '\n' || c.val = 0xB || c.val = 0xC || c = '\r' || c = ' ' ||
  c.val = 0xA0 || c.val = 0x1680 || (0x2000 ≤ c.val && c.val ≤ 0x200A) ||
  c.val = 0x2028 || c.val = 0x2029 || c.val = 0x202F || c.val = 0x205F ||
  c.val = 0x3000 || c.val = 0xFEFF

/-- JavaScript line terminators (relevant for automatic semicolon insertion
immediately after `return`). -/
def isLineTerm (c : Char) : Bool :=
  c = '\n' || c = '\r' || c.val = 0x2028 || c.val = 0x2029

/-- The allow-list `[0-9+\-*/.()\s]` of the sanitizing regular
expressions. -/
def isAllowedChar (c : Char) : Bool :=
  c.isDigit || c = '+' || c = '-' || c = '*' || c = '/' || c = '.' ||
  c = '(' || c = ')' || isJsWs c

/-- A string consisting only of digits, the four operators, dot,
parentheses and whitespace. -/
def allowedString (s : String) : Bool := s.data.all isAllowedChar

/-- Tokens of the evaluated grammar.  `dplus`, `dminus` and `dstar` are the
maximal-munch punctuators `++`, `--` and `**`; over this character set the
update operators are always early errors, and the exponentiation operator
is outside the grammar the specification fixes for the evaluator, so all
three are rejected by the parser. -/
inductive Token where
  | num (v : ℚ)
  | plus
  | minus
  | star
  | slash
  | lparen
  | rparen
  | dplus
  | dminus
  | dstar
deriving DecidableEq, Repr

/-- Value of a digit string in the given base. -/
def digitsVal (base : ℕ) (ds : List Char) : ℕ :=
  ds.foldl (fun a c => base * a + (c.toNat - '0'.toNat)) 0

/-- Value of the fractional digit string `ds` read after a decimal point. -/
def fracVal (ds : List Char) : ℚ :=
  (digitsVal 10 ds : ℚ) / (10 : ℚ) ^ ds.length

/-- Read the optional `. DecimalDigits?` tail of a decimal literal whose
integer part is `intPart`. -/
def lexNumTail (intPart : ℕ) (cs : List Char) : ℚ × List Char :=
  match cs with
  | '.' :: rest =>
    let p := rest.span Char.isDigit
    ((intPart : ℚ) + fracVal p.1, p.2)
  | _ => ((intPart : ℚ), cs)

/-- Read a numeric literal starting with digit `c`, sloppy-mode JavaScript
rules: a leading `0` followed by octal digits only is a legacy octal
integer (which admits no fractional tail); a leading `0` followed by
digits including `8` or `9` is read as decimal. -/
def lexNumber (c : Char) (rest : List Char) : ℚ × List Char :=
  if c = '0' then
    match rest with
    | d :: _ =>
      if d.isDigit then
        let p := rest.span Char.isDigit
        if p.1.all (fun x => x ≤ '7') then ((digitsVal 8 p.1 : ℚ), p.2)
        else lexNumTail (digitsVal 10 p.1) p.2
      else if d = '.' then lexNumTail 0 rest
      else ((0 : ℚ), rest)
    | [] => ((0 : ℚ), [])
  else
    let p := (c :: rest).span Char.isDigit
    lexNumTail (digitsVal 10 p.1) p.2

/-- Tokenize a character list (maximal munch, fuel-indexed; the fuel is
always sufficient since every step consumes at least one character).
`none` is a syntax error. -/
def lexAux : ℕ → List Char → Option (List Token)
  | 0, _ => none
  | _ + 1, [] => some []
  | f + 1, c :: rest =>
    if isJsWs c then lexAux f rest
    else if c = '+' then
      match rest with
      | '+' :: rest2 => (lexAux f rest2).map (fun ts => Token.dplus :: ts)
      | _ => (lexAux f rest).map (fun ts => Token.plus :: ts)
    else if c = '-' then
      match rest with
      | '-' :: rest2 => (lexAux f rest2).map (fun ts => Token.dminus :: ts)
      | _ => (lexAux f rest).map (fun ts => Token.minus :: ts)
    else if c = '*' then
      match rest with
      | '*' :: rest2 => (lexAux f rest2).map (fun ts => Token.dstar :: ts)
      | _ => (lexAux f rest).map (fun ts => Token.star :: ts)
    else if c = '/' then (lexAux f rest).map (fun ts => Token.slash :: ts)
    else if c = '(' then (lexAux f rest).map (fun ts => Token.lparen :: ts)
    else if c = ')' then (lexAux f rest).map (fun ts => Token.rparen :: ts)
    else if c = '.' then
      match rest.span Char.isDigit with
      | ([], _) => none
      | (ds, rest2) => (lexAux f rest2).map (fun ts => Token.num (fracVal ds) :: ts)
    else if c.isDigit then
      match lexNumber c rest with
      | (v, rest2) => (lexAux f rest2).map (fun ts => Token.num v :: ts)
    else none

mutual

/-- `AdditiveExpression`: a multiplicative expression followed by a run of
`+`/`-` continuations (left associative). -/
def parseAddF : ℕ → List Token → Option (JsNum × List Token)
  | 0, _ => none
  | f + 1, ts =>
    match parseMulF f ts with
    | none => none
    | some (v, rest) => parseAddLoop f v rest

def parseAddLoop : ℕ → JsNum → List Token → Option (JsNum × List Token)
  | 0, _, _ => none
  | f + 1, v, ts =>
    match ts with
    | Token.plus :: rest =>
      match parseMulF f rest with
      | none => none
      | some (w, rest2) => parseAddLoop f (jsAdd v w) rest2
    | Token.minus :: rest =>
      match parseMulF f rest with
      | none => none
      | some (w, rest2) => parseAddLoop f (jsSub v w) rest2
    | _ => some (v, ts)

/-- `MultiplicativeExpression`: a unary expression followed by a run of
`*`/`/` continuations (left associative). -/
def parseMulF : ℕ → List Token → Option (JsNum × List Token)
  | 0, _ => none
  | f + 1, ts =>
    match parseUnaryF f ts with
    | none => none
    | some (v, rest) => parseMulLoop f v rest

def parseMulLoop : ℕ → JsNum → List Token → Option (JsNum × List Token)
  | 0, _, _ => none
  | f + 1, v, ts =>
    match ts with
    | Token.star :: rest =>
      match parseUnaryF f rest with
      | none => none
      | some (w, rest2) => parseMulLoop f (jsMul v w) rest2
    | Token.slash :: rest =>
      match parseUnaryF f rest with
      | none => none
      | some (w, rest2) => parseMulLoop f (jsDiv v w) rest2
    | _ => some (v, ts)

/-- `UnaryExpression`: unary `+`/`-` prefixes over a primary expression
(unary plus is `ToNumber`, the identity on numbers). -/
def parseUnaryF : ℕ → List Token → Option (JsNum × List Token)
  | 0, _ => none
  | f + 1, ts =>
    match ts with
    | Token.minus :: rest =>
      match parseUnaryF f rest with
      | none => none
      | some (v, rest2) => some (jsNeg v, rest2)
    | Token.plus :: rest => parseUnaryF f rest
    | _ => parsePrimaryF f ts

/-- `PrimaryExpression`: a numeric literal or a parenthesized expression. -/
def parsePrimaryF : ℕ → List Token → Option (JsNum × List Token)
  | 0, _ => none
  | f + 1, ts =>
    match ts with
    | Token.num v :: rest => some (JsNum.finite v, rest)
    | Token.lparen :: rest =>
      match parseAddF f rest with
      | some (v, Token.rparen :: rest2) => some (v, rest2)
      | _ => none
    | _ => none

end

/-- Parse and evaluate a whole token list as one expression; `none` is a
syntax error. -/
def runTokens (ts : List Token) : Option JsNum :=
  match parseAddF (4 * ts.length + 8) ts with
  | some (v, []) => some v
  | _ => none

/-- A line terminator among the leading whitespace triggers automatic
semicolon insertion directly after `return`. -/
def hasLeadingLT (cs : List Char) : Bool :=
  (cs.takeWhile isJsWs).any isLineTerm

/-- The call `new Function('return ' + s)()` over the restricted character
set: `none` is a thrown exception (syntax error); a bare `return` —
whitespace-only body or a line terminator before the first token —
produces `undefined`. -/
def runFunctionCs (cs : List Char) : Option JsValue :=
  if hasLeadingLT cs then some JsValue.undef
  else
    match lexAux (cs.length + 1) cs with
    | none => none
    | some [] => some JsValue.undef
    | some ts => (runTokens ts).map JsValue.num

/-- Global replacement of the two-character pattern `a b` by `r`
(non-overlapping, left to right), as `String.replace` with a two-character
regular expression does. -/
def replaceSeq2 (a b r : Char) : List Char → List Char
  | c :: d :: rest =>
    if c = a ∧ d = b then r :: replaceSeq2 a b r rest
    else c :: replaceSeq2 a b r (d :: rest)
  | cs => cs

/-- `String.prototype.trim`: drop JavaScript whitespace from both ends. -/
def jsTrim (cs : List Char) : List Char :=
  ((cs.dropWhile isJsWs).reverse.dropWhile isJsWs).reverse

/-- The trailing-operator trim `.replace(/[+\-*\/.]+$/, '')`. -/
def stripTrailingOps (cs : List Char) : List Char :=
  (cs.reverse.dropWhile
    (fun c => c = '+' || c = '-' || c = '*' || c = '/' || c = '.')).reverse

/-- The sanitization pipeline of `evaluateExpression`
(`src/services/math-service.ts` lines 12-20): the two substring
replacements exactly as written in the source — whose patterns are the
byte sequences U+0E23 U+0097 and U+0E23 U+0E17, not the multiplication
and division glyphs U+00D7 and U+00F7 — then the character allow-list
filter, then trim, trailing-operator strip, trim. -/
def sanitizePipeline (cs : List Char) : List Char :=
  let s1 := replaceSeq2 (Char.ofNat 0x0E23) (Char.ofNat 0x0097) '*' cs
  let s2 := replaceSeq2 (Char.ofNat 0x0E23) (Char.ofNat 0x0E17) '/' s1
  let s3 := s2.filter isAllowedChar
  jsTrim (stripTrailingOps (jsTrim s3))

/-- `evaluateExpression` of `src/services/math-service.ts`: sanitize, fail
on empty, evaluate inside try/catch, and map a caught exception, a
non-number result or a non-finite number to NaN (the `InvalidExpression`
marker).  The returned `JsNum` is the `result` field of the resolved
promise. -/
def evaluateExpression (expression : String) : JsNum :=
  let t := sanitizePipeline expression.data
  if t = [] then JsNum.nan
  else
    match runFunctionCs t with
    | none => JsNum.nan
    | some JsValue.undef => JsNum.nan
    | some (JsValue.num n) => if jsIsFinite n then n else JsNum.nan

/-- `simpleEvaluate` of `src/app/page.tsx`: replace the localized glyphs
U+00D7 and U+00F7, reject any character outside the allow-list (throw,
caught as NaN), then evaluate; a caught exception becomes NaN, but the
raw evaluation result is returned with no finiteness check. -/
def simpleEvaluate (expression : String) : JsValue :=
  let cs :=
    (expression.data.map (fun c => if c = '×' then '*' else c)).map
      (fun c => if c = '÷' then '/' else c)
  if cs.any (fun c => !isAllowedChar c) then JsValue.num JsNum.nan
  else
    match runFunctionCs cs with
    | none => JsValue.num JsNum.nan
    | some v => v

/-- JavaScript string truthiness of an optional string: `undefined` and the
empty string are falsy. -/
def strTruthy : Option String → Bool
  | none => false
  | some s => s ≠ ""

/-- The equation assembly policy of `solveScannedEquationsFlow`
(`src/ai/flows/solve-equations.ts` line 58):
`(operators.length > 0 && extractedExpression) ? extractedExpression
: numbers.join(' + ')`. -/
def assemble (numbers operators : List String) (freeform : Option String) : String :=
  if 0 < operators.length ∧ strTruthy freeform = true then freeform.getD ""
  else String.intercalate " + " numbers

/-- The OCR extraction record (`OcrResult` of
`src/services/ocr-service.ts`). -/
structure OcrResult where
  expression : String
  numbers : List String
  operators : List String
deriving DecidableEq, Repr

/-- The output record of `solveScannedEquationsFlow`. -/
structure FlowOutput where
  expression : String
  result : JsNum
deriving DecidableEq, Repr

/-- The expression string the flow builds from an extraction result. -/
def assembleExpr (ocr : OcrResult) : String :=
  assemble ocr.numbers ocr.operators (some ocr.expression)

/-- `solveScannedEquationsFlow` after a successful extraction
(`src/ai/flows/solve-equations.ts` lines 49-84): assemble the expression;
an expression that is empty after trimming yields the default state; a NaN
evaluation yields result 0 with the expression preserved for correction;
otherwise the evaluation result is returned. -/
def solveFlow (ocr : OcrResult) : FlowOutput :=
  let expression := assembleExpr ocr
  if jsTrim expression.data = [] then ⟨"No equation found", JsNum.finite 0⟩
  else
    let evaluation := evaluateExpression expression
    if jsIsNaN evaluation then ⟨expression, JsNum.finite 0⟩
    else ⟨expression, evaluation⟩

/-- A fractional crop-region corner. -/
structure Corner where
  x : ℚ
  y : ℚ
deriving DecidableEq, Repr

/-- The initial corner state of `src/app/page.tsx` (lines 36-40). -/
def initialCorners : List Corner :=
  [⟨1/10, 1/10⟩, ⟨9/10, 1/10⟩, ⟨9/10, 9/10⟩, ⟨1/10, 9/10⟩]

/-- The corner state installed by `handleReset` (`src/app/page.tsx` lines
54-57). -/
def resetCorners : List Corner :=
  [⟨1/10, 1/10⟩, ⟨9/10, 1/10⟩, ⟨9/10, 9/10⟩, ⟨1/10, 9/10⟩]

/-- `Math.max(0, Math.min(1, v))`. -/
def clamp01 (v : ℚ) : ℚ := max 0 (min 1 v)

/-- `handlePointerMove` (`src/app/page.tsx` lines 117-133) with a corner
being dragged: the pointer position relative to the cropper box is scaled
by the box dimensions, clamped into the unit interval, and stored at the
dragged index.  Coordinates are modelled as exact rationals. -/
def handlePointerMove (corners : List Corner) (draggingCorner : ℕ)
    (clientX clientY rectLeft rectTop rectWidth rectHeight : ℚ) : List Corner :=
  let x := clientX - rectLeft
  let y := clientY - rectTop
  let newX := clamp01 (x / rectWidth)
  let newY := clamp01 (y / rectHeight)
  corners.set draggingCorner ⟨newX, newY⟩

/-- A corner with both coordinates inside the unit interval. -/
def cornerIn01 (c : Corner) : Prop :=
  0 ≤ c.x ∧ c.x ≤ 1 ∧ 0 ≤ c.y ∧ c.y ≤ 1

instance (c : Corner) : Decidable (cornerIn01 c) := by
  unfold cornerIn01
  infer_instance

/-- The argument object `handleSolve` (`src/app/page.tsx` lines 85-109)
passes to `solveScannedEquations`: the original image data URI and the
corner coordinates scaled to absolute pixel positions. -/
structure SolveCallArgs where
  photoDataUri : String
  corners : List Corner
deriving Repr

/-- `handleSolve`: build the call argument from the session state. -/
def handleSolveArgs (originalImage : String) (imageWidth imageHeight : ℚ)
    (corners : List Corner) : SolveCallArgs :=
  ⟨originalImage, corners.map (fun c => ⟨c.x * imageWidth, c.y * imageHeight⟩)⟩

/-- The flow input after validation against
`SolveScannedEquationsInputSchema` (`src/ai/flows/solve-equations.ts`
lines 16-22): the schema declares only `photoDataUri`, so the `corners`
field of the call argument is dropped. -/
structure SolveScannedEquationsInput where
  photoDataUri : String
deriving DecidableEq, Repr

/-- Validation of the call argument against the flow input schema. -/
def parseFlowInput (args : SolveCallArgs) : SolveScannedEquationsInput :=
  ⟨args.photoDataUri⟩

/-- The payload `solveScannedEquationsFlow` submits to the remote OCR
collaborator: `extractNumbersAndOperators(input.photoDataUri)`
(`src/ai/flows/solve-equations.ts` line 43). -/
def ocrSubmission (args : SolveCallArgs) : String :=
  (parseFlowInput args).photoDataUri

/-- A decoded raster image: pixel dimensions and a pixel lookup (an
abstract color value per coordinate); the visible content is the lookup
restricted to the dimensions. -/
structure Raster where
  width : ℕ
  height : ℕ
  pixel : ℕ → ℕ → ℕ

/-- A freshly created canvas: transparent black everywhere. -/
def blankCanvas (w h : ℕ) : Raster :=
  ⟨w, h, fun _ _ => 0⟩

/-- The pixel-rectangle argument of `getCroppedImg` (the `Area` of
react-easy-crop). -/
structure AreaRect where
  x : ℕ
  y : ℕ
  width : ℕ
  height : ℕ
deriving DecidableEq, Repr

/-- The nine-argument `drawImage` as both crop utilities call it (source
rectangle and destination rectangle of equal dimensions, so no scaling):
destination pixels inside the destination rectangle whose source sample is
in bounds take the source pixel; all others keep the destination pixel
(the canvas specification clips the source rectangle). -/
def drawImageRect (dest source : Raster) (sx sy sw sh dx dy : ℕ) : Raster :=
  { width := dest.width, height := dest.height,
    pixel := fun px py =>
      if dx ≤ px ∧ px < dx + sw ∧ dy ≤ py ∧ py < dy + sh
          ∧ sx + (px - dx) < source.width ∧ sy + (py - dy) < source.height
      then source.pixel (sx + (px - dx)) (sy + (py - dy))
      else dest.pixel px py }

/-- Decoding the source image: `createImage` resolves with the decoded
raster or rejects. -/
inductive LoadResult where
  | ok (img : Raster)
  | err

/-- The outcome of a crop call as seen by its caller: a resolved raster, a
resolved explicit null, or a rejected promise (an exception thrown past
the caller). -/
inductive CropOutcome where
  | result (r : Raster)
  | noResult
  | thrown

/-- `getCroppedImg` of `src/lib/cropImage.ts`: await decode (a decode
failure rejects, uncaught), require a 2D context on a full-size canvas,
draw the whole image, require a 2D context on the crop-sized canvas, draw
the crop rectangle from the full canvas, and encode.  The boolean flags
say whether each `getContext('2d')` call succeeds. -/
def getCroppedImgCI (load : LoadResult) (ctxOk croppedCtxOk : Bool)
    (pixelCrop : AreaRect) : CropOutcome :=
  match load with
  | .err => .thrown
  | .ok image =>
    if ctxOk then
      let canvas :=
        drawImageRect (blankCanvas image.width image.height) image
          0 0 image.width image.height 0 0
      if croppedCtxOk then
        .result (drawImageRect (blankCanvas pixelCrop.width pixelCrop.height)
          canvas pixelCrop.x pixelCrop.y pixelCrop.width pixelCrop.height 0 0)
      else .noResult
    else .noResult

/-- `getCroppedImg` of `src/lib/image-utils.ts`: await decode (a decode
failure rejects, uncaught), require a 2D context on a crop-sized canvas,
draw the crop rectangle directly from the image, then encode via `toBlob`
— whose failure is turned into a rejected promise. -/
def getCroppedImgIU (load : LoadResult) (ctxOk blobOk : Bool)
    (pixelCrop : AreaRect) : CropOutcome :=
  match load with
  | .err => .thrown
  | .ok image =>
    if ctxOk then
      let cropped :=
        drawImageRect (blankCanvas pixelCrop.width pixelCrop.height) image
          pixelCrop.x pixelCrop.y pixelCrop.width pixelCrop.height 0 0
      if blobOk then .result cropped else .thrown
    else .noResult

/-! Helper lemmas shared by several results. -/

/-- `evaluateExpression` always returns a finite number or NaN: the whole
body runs inside try/catch and the result validation step maps every
non-finite or non-numeric outcome to NaN. -/
theorem evaluateExpression_classify (s : String) :
    (∃ q, evaluateExpression s = JsNum.finite q) ∨ evaluateExpression s = JsNum.nan := by
  simp only [evaluateExpression]
  split
  · exact Or.inr rfl
  · split
    · exact Or.inr rfl
    · exact Or.inr rfl
    next n _ =>
      cases n with
      | finite q => exact Or.inl ⟨q, rfl⟩
      | posInf => exact Or.inr rfl
      | negInf => exact Or.inr rfl
      | nan => exact Or.inr rfl

/-- `Math.max(0, Math.min(1, v))` lands in the unit interval. -/
theorem clamp01_bounds (v : ℚ) : 0 ≤ clamp01 v ∧ clamp01 v ≤ 1 :=
  ⟨le_max_left 0 _, max_le (by norm_num) (min_le_left 1 v)⟩

/-- A `drawImage` call at destination origin copies every in-bounds source
pixel of the copied rectangle. -/
theorem drawImageRect_pixel_in (dest source : Raster) (sx sy sw sh i j : ℕ)
    (hi : i < sw) (hj : j < sh)
    (hsx : sx + i < source.width) (hsy : sy + j < source.height) :
    (drawImageRect dest source sx sy sw sh 0 0).pixel i j =
      source.pixel (sx + i) (sy + j) := by
  simp only [drawImageRect]
  rw [if_pos]
  · simp
  · exact ⟨Nat.zero_le _, by omega, Nat.zero_le _, by omega, by omega, by omega⟩

end AgriCalc

namespace AgriCalc

/-- Claim C1 (corrected), counterexample: the string "3/0" lies in the
allowed character set, yet `simpleEvaluate` returns Infinity to its
caller — neither a finite number nor the NaN marker — because
`simpleEvaluate` performs no finiteness check on the evaluation result. -/
theorem C1_counterexample_simpleEvaluate_infinite :
    allowedString "3/0" = true ∧
    simpleEvaluate "3/0" = JsValue.num JsNum.posInf ∧
    ¬((∃ q, simpleEvaluate "3/0" = JsValue.num (JsNum.finite q)) ∨
      simpleEvaluate "3/0" = JsValue.num JsNum.nan) := by
  refine ⟨by decide, by decide, ?_⟩
  have he : simpleEvaluate "3/0" = JsValue.num JsNum.posInf := by decide
  intro h
  rcases h with ⟨q, hq⟩ | hq <;> rw [he] at hq <;> simp at hq

/-- Claim C1 (amended): for every string over digits, the four operators,
dot, parentheses and whitespace, `evaluateExpression` never surfaces an
exception and returns either a finite number or the `InvalidExpression`
marker NaN; the same guarantee does not extend to `simpleEvaluate`, which
can return an infinite value. -/
theorem C1_evaluateExpression_finite_or_invalid (s : String)
    (h : allowedString s = true) :
    (∃ q, evaluateExpression s = JsNum.finite q) ∨ evaluateExpression s = JsNum.nan :=
  evaluateExpression_classify s

/-- Witness for C1 at the concrete input "2+2". -/
theorem C1_witness :
    allowedString "2+2" = true ∧
    ((∃ q, evaluateExpression "2+2" = JsNum.finite q) ∨
      evaluateExpression "2+2" = JsNum.nan) :=
  ⟨by decide, C1_evaluateExpression_finite_or_invalid "2+2" (by decide)⟩

/-- Claim C2 (code bug): the replacement patterns of `evaluateExpression`
are the mojibake character sequences U+0E23 U+0097 and U+0E23 U+0E17
rather than the glyphs U+00D7 and U+00F7 the comment in the source
announces, so the localized multiplication glyph is not normalized but
stripped by the allow-list filter: `evaluateExpression "2×3"` evaluates
the remaining digit string "23" to 23, not 6, while the inline
`simpleEvaluate` of the page (whose patterns are intact) yields 6. -/
theorem C2_mojibake_breaks_glyph_normalization :
    evaluateExpression "2×3" = JsNum.finite 23 ∧
    evaluateExpression "2*3" = JsNum.finite 6 ∧
    simpleEvaluate "2×3" = JsValue.num (JsNum.finite 6) ∧
    JsNum.finite 23 ≠ JsNum.finite 6 :=
  ⟨by decide, by decide, by decide, by decide⟩

/-- Claim C3 (corrected), counterexample: `simpleEvaluate "3/0"` returns
Infinity unchanged instead of the `InvalidExpression` marker, since
`simpleEvaluate` has no result-validation step. -/
theorem C3_counterexample_simpleEvaluate_no_validation :
    simpleEvaluate "3/0" = JsValue.num JsNum.posInf ∧
    JsValue.num JsNum.posInf ≠ JsValue.num JsNum.nan :=
  ⟨by decide, by decide⟩

/-- Claim C3 (amended): in `evaluateExpression`, every input whose
arithmetic evaluation yields a non-finite number (Infinity, -Infinity or
NaN) produces the `InvalidExpression` marker NaN, and in particular
`evaluateExpression "3/0" = NaN`; `simpleEvaluate` returns non-finite
values unchanged. -/
theorem C3_evaluateExpression_nonfinite_to_invalid :
    (∀ s n, runFunctionCs (sanitizePipeline s.data) = some (JsValue.num n) →
      jsIsFinite n = false → evaluateExpression s = JsNum.nan) ∧
    evaluateExpression "3/0" = JsNum.nan := by
  constructor
  · intro s n h hf
    simp only [evaluateExpression]
    split
    · rfl
    · rw [h]
      simp [hf]
  · decide

/-- Witness for C3 at the concrete input "1/0", whose evaluation yields
Infinity. -/
theorem C3_witness :
    runFunctionCs (sanitizePipeline "1/0".data) = some (JsValue.num JsNum.posInf) ∧
    jsIsFinite JsNum.posInf = false ∧
    evaluateExpression "1/0" = JsNum.nan :=
  ⟨by decide, by decide,
    C3_evaluateExpression_nonfinite_to_invalid.1 "1/0" JsNum.posInf (by decide) (by decide)⟩

/-- Claim C4 (confirmed): `evaluateExpression` computes standard infix
arithmetic with conventional operator precedence and parenthetical
grouping: "2+2" = 4, "2*3+4" = 10, "(2+3)*4" = 20. -/
theorem C4_precedence_and_grouping :
    evaluateExpression "2+2" = JsNum.finite 4 ∧
    evaluateExpression "2*3+4" = JsNum.finite 10 ∧
    evaluateExpression "(2+3)*4" = JsNum.finite 20 :=
  ⟨by decide, by decide, by decide⟩

/-- Claim C5 (confirmed): the assembly policy returns the freeform
expression unchanged when the operator list is non-empty and a non-empty
freeform expression was supplied; in every other case it joins the
numbers with " + ", and with an empty number list the result is the empty
string. -/
theorem C5_assembly_policy :
    (∀ numbers operators f s, operators ≠ [] → f = some s → s ≠ "" →
      assemble numbers operators f = s) ∧
    (∀ numbers operators f, ¬(0 < operators.length ∧ strTruthy f = true) →
      assemble numbers operators f = String.intercalate " + " numbers) ∧
    assemble ["2", "3", "5"] [] none = "2 + 3 + 5" ∧
    assemble [] [] none = "" := by
  refine ⟨?_, ?_, by decide, by decide⟩
  · intro numbers operators f s hop hf hs
    subst hf
    unfold assemble
    rw [if_pos]
    · rfl
    · exact ⟨List.length_pos.mpr hop, by simp [strTruthy, hs]⟩
  · intro numbers operators f h
    unfold assemble
    rw [if_neg h]

/-- Witness for C5: a non-empty operator list with a non-empty freeform
expression returns that expression verbatim. -/
theorem C5_witness :
    (["+"] ≠ ([] : List String)) ∧ assemble ["2"] ["+"] (some "2+3") = "2+3" :=
  ⟨by decide,
    C5_assembly_policy.1 ["2"] ["+"] (some "2+3") "2+3" (by decide) rfl (by decide)⟩

/-- Claim C6 (code bug): the payload submitted to the remote OCR
collaborator is `input.photoDataUri` alone; the `corners` field built by
`handleSolve` is dropped by the flow input schema and never read by the
flow, so two sessions with the same image and different corner positions
submit identical data — the crop region never reaches the collaborator. -/
theorem C6_ocr_payload_independent_of_corners :
    ∀ originalImage imageWidth imageHeight c1 c2,
      ocrSubmission (handleSolveArgs originalImage imageWidth imageHeight c1) =
        ocrSubmission (handleSolveArgs originalImage imageWidth imageHeight c2) :=
  fun _ _ _ _ _ => rfl

/-- Claim C7 (confirmed): both crop implementations produce a raster of
exactly the rectangle's dimensions whose every visible pixel equals the
corresponding pixel of the source sub-rectangle. -/
theorem C7_crop_dimensions_and_content (img : Raster) (pixelCrop : AreaRect)
    (hx : pixelCrop.x + pixelCrop.width ≤ img.width)
    (hy : pixelCrop.y + pixelCrop.height ≤ img.height) :
    (∃ r, getCroppedImgCI (LoadResult.ok img) true true pixelCrop = CropOutcome.result r ∧
      r.width = pixelCrop.width ∧ r.height = pixelCrop.height ∧
      ∀ i j, i < pixelCrop.width → j < pixelCrop.height →
        r.pixel i j = img.pixel (pixelCrop.x + i) (pixelCrop.y + j)) ∧
    (∃ r, getCroppedImgIU (LoadResult.ok img) true true pixelCrop = CropOutcome.result r ∧
      r.width = pixelCrop.width ∧ r.height = pixelCrop.height ∧
      ∀ i j, i < pixelCrop.width → j < pixelCrop.height →
        r.pixel i j = img.pixel (pixelCrop.x + i) (pixelCrop.y + j)) := by
  constructor
  · refine ⟨_, rfl, rfl, rfl, ?_⟩
    intro i j hi hj
    rw [drawImageRect_pixel_in (blankCanvas pixelCrop.width pixelCrop.height)
      (drawImageRect (blankCanvas img.width img.height) img 0 0 img.width img.height 0 0)
      pixelCrop.x pixelCrop.y pixelCrop.width pixelCrop.height i j hi hj
      (by omega : pixelCrop.x + i < img.width)
      (by omega : pixelCrop.y + j < img.height)]
    rw [drawImageRect_pixel_in (blankCanvas img.width img.height) img
      0 0 img.width img.height (pixelCrop.x + i) (pixelCrop.y + j)
      (by omega) (by omega) (by omega) (by omega)]
    simp
  · refine ⟨_, rfl, rfl, rfl, ?_⟩
    intro i j hi hj
    rw [drawImageRect_pixel_in (blankCanvas pixelCrop.width pixelCrop.height) img
      pixelCrop.x pixelCrop.y pixelCrop.width pixelCrop.height i j hi hj
      (by omega) (by omega)]

/-- Witness for C7: cropping the rectangle with corner (1,1) and size 2×2
out of a 4×4 raster. -/
theorem C7_witness :
    (1 + 2 ≤ 4) ∧
    ((∃ r, getCroppedImgCI (LoadResult.ok ⟨4, 4, fun a b => 10 * a + b⟩) true true
        ⟨1, 1, 2, 2⟩ = CropOutcome.result r ∧
        r.width = 2 ∧ r.height = 2 ∧
        ∀ i j, i < 2 → j < 2 → r.pixel i j = 10 * (1 + i) + (1 + j)) ∧
      (∃ r, getCroppedImgIU (LoadResult.ok ⟨4, 4, fun a b => 10 * a + b⟩) true true
        ⟨1, 1, 2, 2⟩ = CropOutcome.result r ∧
        r.width = 2 ∧ r.height = 2 ∧
        ∀ i j, i < 2 → j < 2 → r.pixel i j = 10 * (1 + i) + (1 + j))) :=
  ⟨by decide,
    C7_crop_dimensions_and_content ⟨4, 4, fun a b => 10 * a + b⟩ ⟨1, 1, 2, 2⟩
      (by decide) (by decide)⟩

/-- Claim C8 (corrected), counterexample: a decode failure of the source
image makes both crop implementations reject the returned promise — the
exception passes to the caller — instead of resolving with the explicit
"no result" value. -/
theorem C8_counterexample_decode_failure_throws :
    getCroppedImgCI LoadResult.err true true ⟨0, 0, 1, 1⟩ = CropOutcome.thrown ∧
    getCroppedImgIU LoadResult.err true true ⟨0, 0, 1, 1⟩ = CropOutcome.thrown ∧
    CropOutcome.thrown ≠ CropOutcome.noResult :=
  ⟨rfl, rfl, fun h => CropOutcome.noConfusion h⟩

/-- Claim C8 (amended): when a 2D drawing surface cannot be acquired both
crop implementations resolve with the explicit "no result" value; when
the source image fails to decode the promise rejects (throws past the
caller), as it also does in the image-utils variant when blob encoding
fails. -/
theorem C8_failure_modes :
    (∀ img c2 crop, getCroppedImgCI (LoadResult.ok img) false c2 crop = CropOutcome.noResult) ∧
    (∀ img crop, getCroppedImgCI (LoadResult.ok img) true false crop = CropOutcome.noResult) ∧
    (∀ c1 c2 crop, getCroppedImgCI LoadResult.err c1 c2 crop = CropOutcome.thrown) ∧
    (∀ img b crop, getCroppedImgIU (LoadResult.ok img) false b crop = CropOutcome.noResult) ∧
    (∀ c b crop, getCroppedImgIU LoadResult.err c b crop = CropOutcome.thrown) ∧
    (∀ img crop, getCroppedImgIU (LoadResult.ok img) true false crop = CropOutcome.thrown) :=
  ⟨fun _ _ _ => rfl, fun _ _ => rfl, fun _ _ _ => rfl,
    fun _ _ _ => rfl, fun _ _ _ => rfl, fun _ _ => rfl⟩

/-- Claim C9 (confirmed): the initial corners, the corners after reset,
and every corner stored by a pointer-drag update have both coordinates in
the unit interval, whatever raw pointer position is reported. -/
theorem C9_corner_clamping :
    (∀ c ∈ initialCorners, cornerIn01 c) ∧
    (∀ c ∈ resetCorners, cornerIn01 c) ∧
    (∀ corners draggingCorner clientX clientY rectLeft rectTop rectWidth rectHeight,
      (∀ c ∈ corners, cornerIn01 c) →
      ∀ c ∈ handlePointerMove corners draggingCorner clientX clientY
          rectLeft rectTop rectWidth rectHeight, cornerIn01 c) := by
  refine ⟨by decide, by decide, ?_⟩
  intro corners idx cx cy l t w h hinv c hc
  simp only [handlePointerMove] at hc
  rcases List.mem_or_eq_of_mem_set hc with h1 | h1
  · exact hinv c h1
  · subst h1
    exact ⟨(clamp01_bounds _).1, (clamp01_bounds _).2,
      (clamp01_bounds _).1, (clamp01_bounds _).2⟩

/-- Witness for C9: dragging corner 0 of the initial state to a pointer
position far outside the box stores a clamped corner. -/
theorem C9_witness :
    (∀ c ∈ initialCorners, cornerIn01 c) ∧
    (∀ c ∈ handlePointerMove initialCorners 0 100 (-5) 0 0 10 10, cornerIn01 c) :=
  ⟨by decide,
    C9_corner_clamping.2.2 initialCorners 0 100 (-5) 0 0 10 10 (by decide)⟩

/-- Claim C10 (confirmed): for every extraction result the flow returns a
finite number — an expression that is empty after trimming yields 0 with
"No equation found", a NaN evaluation yields 0 with the assembled
expression preserved for correction, and otherwise the finite evaluation
result is returned. -/
theorem C10_flow_result_finite :
    (∀ ocr, ∃ q, (solveFlow ocr).result = JsNum.finite q) ∧
    (∀ ocr, jsTrim (assembleExpr ocr).data = [] →
      solveFlow ocr = ⟨"No equation found", JsNum.finite 0⟩) ∧
    (∀ ocr, jsTrim (assembleExpr ocr).data ≠ [] →
      evaluateExpression (assembleExpr ocr) = JsNum.nan →
      solveFlow ocr = ⟨assembleExpr ocr, JsNum.finite 0⟩) := by
  refine ⟨?_, ?_, ?_⟩
  · intro ocr
    simp only [solveFlow]
    split
    · exact ⟨0, rfl⟩
    · rcases evaluateExpression_classify (assembleExpr ocr) with ⟨q, hq⟩ | hq <;> rw [hq]
      · exact ⟨q, by simp [jsIsNaN]⟩
      · exact ⟨0, by simp [jsIsNaN]⟩
  · intro ocr h
    simp only [solveFlow]
    rw [if_pos h]
  · intro ocr h hnan
    simp only [solveFlow]
    rw [if_neg h, hnan]
    simp [jsIsNaN]

set_option maxHeartbeats 2000000 in
/-- Witness for C10: an empty extraction yields the default state, and an
unevaluable extracted expression is preserved with result 0. -/
theorem C10_witness :
    jsTrim (assembleExpr ⟨"", [], []⟩).data = [] ∧
    solveFlow ⟨"", [], []⟩ = ⟨"No equation found", JsNum.finite 0⟩ ∧
    evaluateExpression (assembleExpr ⟨"((", [], ["+"]⟩) = JsNum.nan ∧
    solveFlow ⟨"((", [], ["+"]⟩ = ⟨"((", JsNum.finite 0⟩ :=
  ⟨by decide,
    C10_flow_result_finite.2.1 ⟨"", [], []⟩ (by decide),
    by decide,
    C10_flow_result_finite.2.2 ⟨"((", [], ["+"]⟩ (by decide) (by decide)⟩

end AgriCalc
